import Mathlib

/-
Shallow embedding of the FNCS co-simulation broker, src/src/broker.cpp.

The broker is a single-threaded event loop over one router socket.  Each
inbound message carries a sender identity and a type tag; the loop mutates
the registry of simulator records and emits outbound messages.  The
embedding models one loop iteration as a pure function from the broker
state and the received message to a step result (continue with new state
and outputs, exit successfully, or exit with failure after broadcasting
DIE).  Times are 64-bit unsigned nanosecond counts, modelled as Nat with
explicit reduction modulo two to the 64th where the C++ arithmetic wraps.
Socket and file input and output (the trace file, real-time pacing sleeps,
the poll call) have no effect on the coordinator state and are not part of
the model; the outputs record every message the broker sends.
-/

namespace FncsBroker

/-- Word bound of the fncs time type: two to the 64th.  All C++ time
arithmetic is unsigned 64-bit and wraps modulo this constant. -/
def W : Nat := 18446744073709551616

/-- Value of ULLONG_MAX, used as the time_requested sentinel after BYE
(broker.cpp line 356). -/
def UMAX : Nat := 18446744073709551615

/-- Unsigned 64-bit subtraction of b from a, for a and b below W: wraps
modulo W exactly as the C++ expression a - b does on uint64 operands. -/
def usub (a b : Nat) : Nat := (W + a - b) % W

/-- Per-simulator record, class SimulatorState of broker.cpp lines 31-49.
The set of subscription topics is kept as a list of distinct strings; only
membership is ever consulted. -/
structure SimulatorState where
  name : String
  time_requested : Nat
  time_delta : Nat
  time_last_processed : Nat
  processing : Bool
  messages_pending : Bool
  subscription_values : List String
deriving DecidableEq, Repr

/-- Default record mirroring the C++ default constructor (lines 33-40),
which sets processing to true and everything else to zero or empty. -/
instance : Inhabited SimulatorState :=
  ⟨{ name := "", time_requested := 0, time_delta := 0, time_last_processed := 0,
     processing := true, messages_pending := false, subscription_values := [] }⟩

/-- Modelled from the spec: the HELLO payload parse (the fncs configuration
parser, section 4.2, lives outside src/) yields an optional time_delta
duration in nanoseconds and an optional list of subscription topics.  A
missing time_delta key defaults to one second with a warning; a missing
values section yields no subscriptions. -/
structure Config where
  time_delta : Option Nat
  values : Option (List String)
deriving DecidableEq, Repr

/-- Inbound message after the sender identity frame: the type tag plus the
type-specific frames.  A frame that can be absent on the wire is an
Option; none models the missing frame. -/
inductive Message where
  | hello (config : Option Config)
  | timeRequest (timeFrame : Option String)
  | timeDelta (timeFrame : Option String)
  | publish (topicFrame : Option String) (valueFrame : Option String)
  | bye
  | die
  | unknown (tag : String)
deriving DecidableEq, Repr

/-- Outbound message emitted by the broker, with its destination. -/
inductive Output where
  | ack (dest : String) (ordinal : Nat) (total : Nat)
  | grant (dest : String) (time : Nat)
  | forward (dest : String) (topic : String) (valueFrame : Option String)
  | byeOut (dest : String)
  | dieOut (dest : String)
deriving DecidableEq, Repr

/-- Global mutable state of the event loop (broker.cpp lines 82-92).  The
field n_processing is a C int and may go negative, hence Int.  The map
name_to_index is not stored: names are unique, so lookup is the index of
the record holding the name. -/
structure BrokerState where
  n_sims : Nat
  do_trace : Bool
  byes : List String
  n_processing : Int
  simulators : List SimulatorState
  time_granted : Nat
deriving DecidableEq, Repr

/-- Result of handling one inbound message: continue the loop with the new
state and the emitted outputs, exit with status 0 (graceful termination),
or exit with failure (broker_die, after broadcasting DIE). -/
inductive StepResult where
  | cont (s : BrokerState) (outs : List Output)
  | exitOk (outs : List Output)
  | exitFail (outs : List Output)
deriving DecidableEq, Repr

/-- Lookup of the index of a registered simulator by identity, modelling
the name_to_index map; names are unique because a duplicate HELLO is
fatal, so the first index with the name is the index the map holds. -/
def findSim (sims : List SimulatorState) (sender : String) : Option Nat :=
  sims.findIdx? (fun r => r.name == sender)

/-- In-place update of the record at the given index, modelling the C++
writes through simulators[index]. -/
def updateAt (sims : List SimulatorState) (i : Nat)
    (f : SimulatorState → SimulatorState) : List SimulatorState :=
  sims.set i (f (sims.getD i default))

/-- Insertion into the byes set (broker.cpp line 340): a set of strings,
so inserting a present element changes nothing. -/
def byesInsert (byes : List String) (x : String) : List String :=
  if byes.contains x then byes else byes ++ [x]

/-- The DIE broadcast of broker_die (broker.cpp lines 58-69): one DIE to
every connected simulator, in registration order. -/
def dieList (sims : List SimulatorState) : List Output :=
  sims.map (fun r => Output.dieOut r.name)

/-- Fatal exit path broker_die: broadcast DIE and exit with failure. -/
def brokerDie (s : BrokerState) : StepResult :=
  StepResult.exitFail (dieList s.simulators)

/-- Models the C++11 istream extraction of an unsigned long long from a
frame string (broker.cpp lines 366-369 and 518-522): leading whitespace is
skipped, then a maximal run of decimal digits is read; when no digit is
present the extraction fails and stores 0; on overflow it stores
ULLONG_MAX.  Sign handling is not modelled: the frames are produced by
printf-style formatting of unsigned values. -/
def ullOfString (str : String) : Nat :=
  let ds := (str.toList.dropWhile (fun c => c.isWhitespace)).takeWhile (fun c => c.isDigit)
  if ds.isEmpty then 0
  else min (ds.foldl (fun acc c => acc * 10 + (c.toNat - 48)) 0) UMAX

/-- Actionable time of a record (broker.cpp lines 384-393): the next delta
tick past the last processed time when messages are pending, otherwise the
requested time.  The uint64 addition wraps modulo W. -/
def actionable (r : SimulatorState) : Nat :=
  if r.messages_pending then (r.time_last_processed + r.time_delta) % W
  else r.time_requested

/-- Minimum of a list of times, modelling min_element over the
time_actionable vector (broker.cpp line 394); the C++ call requires a
nonempty range, and the empty case returns 0 here. -/
def listMin : List Nat → Nat
  | [] => 0
  | x :: xs => xs.foldl Nat.min x

/-- Fast forward of a simulator that is not granted this round
(broker.cpp lines 417-421): advance time_last_processed by the largest
multiple of time_delta not exceeding the grant.  All arithmetic is
wrapping uint64; a zero time_delta would divide by zero in the C++ code
(undefined there, and excluded by the spec, which requires strictly
positive deltas); Nat division by zero yields 0 here. -/
def fastForward (tg : Nat) (r : SimulatorState) : SimulatorState :=
  let jump := usub tg r.time_last_processed / r.time_delta
  { r with time_last_processed := (r.time_last_processed + r.time_delta * jump) % W }

/-- Grant computation once n_processing has reached 0 (broker.cpp lines
382-422): compute every actionable time, set time_granted to the minimum,
then grant exactly the simulators whose actionable time equals it (marking
them processing, clearing messages_pending, counting them in n_processing
and sending each a TIME_REQUEST with the granted time, in ordinal order)
and fast forward the rest.  The C++ loops index simulators[i] for i below
n_sims; the embedding reads the prefix of that length, which is the whole
vector whenever the registry holds exactly n_sims records, the only case
in which the C++ indexing is in bounds.  The real-time pacing block
(lines 397-405) only sleeps and touches no coordinator state. -/
def grantRound (s : BrokerState) : BrokerState × List Output :=
  let pre := s.simulators.take s.n_sims
  let tg := listMin (pre.map actionable)
  let granted := pre.filter (fun r => actionable r = tg)
  ({ s with
      simulators := pre.map (fun r =>
        if actionable r = tg then
          { r with processing := true, messages_pending := false }
        else fastForward tg r) ++ s.simulators.drop s.n_sims,
      time_granted := tg,
      n_processing := s.n_processing + granted.length },
   granted.map (fun r => Output.grant r.name tg))

/-- Completion bookkeeping shared by TIME_REQUEST and BYE (broker.cpp
lines 356, 372 and 375-379): store the requested time (the ULLONG_MAX
sentinel for BYE), stamp time_last_processed with the current grant, clear
the processing flag and decrement n_processing. -/
def recordCompletion (s : BrokerState) (index : Nat) (treq : Nat) : BrokerState :=
  { s with
    simulators := updateAt s.simulators index (fun r =>
      { r with time_requested := treq, time_last_processed := s.time_granted,
               processing := false }),
    n_processing := s.n_processing - 1 }

/-- Record built by the HELLO handler (broker.cpp lines 265-272): a
missing time_delta defaults to one second, a missing values section to no
subscriptions; the parsed delta is a uint64. -/
def newSimRecord (sender : String) (cfg : Config) : SimulatorState :=
  { name := sender
    time_delta := cfg.time_delta.getD 1000000000 % W
    time_requested := 0
    time_last_processed := 0
    processing := false
    messages_pending := false
    subscription_values := cfg.values.getD [] }

/-- One iteration of the event loop dispatcher (broker.cpp lines 162-535)
on a message received from the given sender.  Transport-level failures
before the dispatcher (null message, missing sender or type frame) also
call broker_die and are outside a well-formed Message.  In the DIE branch
the C++ code first checks that the sender is registered and dies, then
dies anyway; both paths broadcast the same DIE list, so the branch maps
directly to broker_die. -/
def step (s : BrokerState) (sender : String) (m : Message) : StepResult :=
  match m with
  | Message.hello cfg? =>
    match findSim s.simulators sender with
    | some _ => brokerDie s
    | none =>
      match cfg? with
      | none => brokerDie s
      | some cfg =>
        let sims1 := s.simulators ++ [newSimRecord sender cfg]
        if sims1.length = s.n_sims then
          let sims2 := sims1.map (fun r => { r with processing := true })
          StepResult.cont
            { s with simulators := sims2, n_processing := (s.n_sims : Int) }
            ((sims2.take s.n_sims).enum.map (fun p => Output.ack p.2.name p.1 s.n_sims))
        else
          StepResult.cont { s with simulators := sims1 } []
  | Message.timeRequest frame? =>
    match findSim s.simulators sender with
    | none => brokerDie s
    | some index =>
      match frame? with
      | none => brokerDie s
      | some f =>
        let s1 := recordCompletion s index (ullOfString f)
        if s1.n_processing = 0 then
          let gr := grantRound s1
          StepResult.cont gr.1 gr.2
        else StepResult.cont s1 []
  | Message.bye =>
    match findSim s.simulators sender with
    | none => brokerDie s
    | some index =>
      let byes1 := byesInsert s.byes sender
      if byes1.length = s.n_sims then
        StepResult.exitOk
          ((s.simulators.take s.n_sims).map (fun r => Output.byeOut r.name))
      else
        let s1 := recordCompletion { s with byes := byes1 } index UMAX
        if s1.n_processing = 0 then
          let gr := grantRound s1
          StepResult.cont gr.1 gr.2
        else StepResult.cont s1 []
  | Message.publish topic? value? =>
    match findSim s.simulators sender with
    | none => brokerDie s
    | some _ =>
      match topic? with
      | none => brokerDie s
      | some topic =>
        if s.do_trace ∧ value? = none then brokerDie s
        else
          let pre := s.simulators.take s.n_sims
          StepResult.cont
            { s with simulators :=
                pre.map (fun r =>
                  if r.subscription_values.contains topic then
                    { r with messages_pending := true }
                  else r) ++ s.simulators.drop s.n_sims }
            ((pre.filter (fun r => r.subscription_values.contains topic)).map
              (fun r => Output.forward r.name topic value?))
  | Message.die => brokerDie s
  | Message.timeDelta frame? =>
    match findSim s.simulators sender with
    | none => brokerDie s
    | some index =>
      match frame? with
      | none => brokerDie s
      | some f =>
        StepResult.cont
          { s with simulators := updateAt s.simulators index (fun r =>
              { r with time_delta := ullOfString f }) } []
  | Message.unknown _ => brokerDie s

/-- State component of a continuing step result. -/
def afterStep (r : StepResult) : Option BrokerState :=
  match r with
  | StepResult.cont s _ => some s
  | _ => none

/-- Whether a step result is the failure exit (broker_die). -/
def isFailExit (r : StepResult) : Bool :=
  match r with
  | StepResult.exitFail _ => true
  | _ => false

/-- Sequencing helper: run one more step from an optional state. -/
def stepAfter (s? : Option BrokerState) (sender : String) (m : Message) :
    Option BrokerState :=
  s?.bind (fun s => afterStep (step s sender m))

/-- View of the subscription sets of the originally registered prefix of
the registry after a continuing step; for a non-continuing result it is
the original view, so that preservation is stated uniformly. -/
def subsView (s : BrokerState) (r : StepResult) : List (List String) :=
  match afterStep r with
  | none => s.simulators.map SimulatorState.subscription_values
  | some s1 => (s1.simulators.map SimulatorState.subscription_values).take s.simulators.length

/-- Convenience constructor for simulator records in concrete states. -/
def mkSim (name : String) (treq delta tlp : Nat) (proc pend : Bool)
    (subs : List String) : SimulatorState :=
  { name := name, time_requested := treq, time_delta := delta,
    time_last_processed := tlp, processing := proc, messages_pending := pend,
    subscription_values := subs }

/-- Concrete two-simulator running-phase state: pA still processing, pB has
already requested time 7. -/
def c1state : BrokerState :=
  { n_sims := 2, do_trace := false, byes := [], n_processing := 1,
    simulators := [mkSim "pA" 0 1000000000 0 true false [],
                   mkSim "pB" 7 1000000000 0 false false []],
    time_granted := 0 }

/-- Concrete round-close state: pA requested 10 with delta 4, pB has
pending messages with delta 3, both last processed at 4. -/
def c2state : BrokerState :=
  { n_sims := 2, do_trace := false, byes := [], n_processing := 0,
    simulators := [mkSim "pA" 10 4 4 false false [],
                   mkSim "pB" 0 3 4 false true []],
    time_granted := 4 }

/-- Concrete state with one subscriber of topicX. -/
def c3state : BrokerState :=
  { n_sims := 2, do_trace := false, byes := [], n_processing := 2,
    simulators := [mkSim "pA" 0 1000000000 0 true false ["topicX"],
                   mkSim "pB" 0 1000000000 0 true false []],
    time_granted := 0 }

/-- Concrete state reached from a fresh three-simulator session after sA
sent one BYE: sA is departed, sB and sC are still processing the initial
grant, so n_processing is 2. -/
def c4state : BrokerState :=
  { n_sims := 3, do_trace := false, byes := ["sA"], n_processing := 2,
    simulators := [mkSim "sA" UMAX 1000000000 0 false false [],
                   mkSim "sB" 0 1000000000 0 true false [],
                   mkSim "sC" 0 1000000000 0 true false []],
    time_granted := 0 }

/-- Concrete full registry for a session expecting one simulator. -/
def c5state : BrokerState :=
  { n_sims := 1, do_trace := false, byes := [], n_processing := 1,
    simulators := [mkSim "alpha" 0 1000000000 0 true false []],
    time_granted := 0 }

/-- Concrete HELLO payload for the late registration. -/
def c5cfg : Config :=
  { time_delta := some 2000000000, values := some ["topicY"] }

/-- Concrete single-simulator state just after registration, with a
simulator whose tick is 2 ns. -/
def c6state : BrokerState :=
  { n_sims := 1, do_trace := false, byes := [], n_processing := 1,
    simulators := [mkSim "gA" 0 2 0 true false []], time_granted := 0 }

/-- Concrete record with delta 2 and an aligned last processed time 4. -/
def c6rec : SimulatorState := mkSim "gB" 0 2 4 false false []

/-- Concrete single-simulator state just after registration with a one
second tick. -/
def c7state : BrokerState :=
  { n_sims := 1, do_trace := false, byes := [], n_processing := 1,
    simulators := [mkSim "p1" 0 1000000000 0 true false []], time_granted := 0 }

/-- Concrete round-close state whose only simulator requests 5 while the
current grant is 3. -/
def c7wstate : BrokerState :=
  { n_sims := 1, do_trace := false, byes := [], n_processing := 0,
    simulators := [mkSim "p2" 5 1 0 false false []], time_granted := 3 }

/-- Concrete single-simulator running state for the termination claim. -/
def c8state : BrokerState :=
  { n_sims := 1, do_trace := false, byes := [], n_processing := 1,
    simulators := [mkSim "sA" 0 1000000000 0 true false []], time_granted := 0 }

/-- Concrete two-simulator running state with tracing enabled. -/
def c9state : BrokerState :=
  { n_sims := 2, do_trace := true, byes := [], n_processing := 2,
    simulators := [mkSim "mA" 0 1000000000 0 true false [],
                   mkSim "mB" 0 1000000000 0 true false []],
    time_granted := 0 }

/-- Concrete single-simulator state with one subscription. -/
def c10state : BrokerState :=
  { n_sims := 1, do_trace := false, byes := [], n_processing := 1,
    simulators := [mkSim "tA" 0 1000000000 0 true false ["topZ"]],
    time_granted := 0 }

/-- Unsigned subtraction below the word bound is plain subtraction. -/
theorem usub_eq (a b : Nat) (hba : b ≤ a) (ha : a < W) : usub a b = a - b := by
  unfold usub
  have h1 : W + a - b = W + (a - b) := by omega
  rw [h1, Nat.add_mod_left]
  exact Nat.mod_eq_of_lt (by omega)

/-- Fast forward in the in-range case: the last processed time advances by
the largest multiple of the delta that does not pass the grant. -/
theorem fastForward_eq (tg : Nat) (r : SimulatorState)
    (h1 : r.time_last_processed ≤ tg) (h2 : tg < W) :
    fastForward tg r = { r with time_last_processed :=
      r.time_last_processed
        + r.time_delta * ((tg - r.time_last_processed) / r.time_delta) } := by
  unfold fastForward
  rw [usub_eq _ _ h1 h2]
  have hle : r.time_delta * ((tg - r.time_last_processed) / r.time_delta)
      ≤ tg - r.time_last_processed := by
    rw [Nat.mul_comm]
    exact Nat.div_mul_le_self _ _
  have hx : (r.time_last_processed
        + r.time_delta * ((tg - r.time_last_processed) / r.time_delta)) % W
      = r.time_last_processed
        + r.time_delta * ((tg - r.time_last_processed) / r.time_delta) :=
    Nat.mod_eq_of_lt (by omega)
  simp only [hx]

/-- Lower bound of a fold of minima. -/
theorem foldl_min_ge (c : Nat) (xs : List Nat) (x : Nat) (hx : c ≤ x)
    (hxs : ∀ y ∈ xs, c ≤ y) : c ≤ xs.foldl Nat.min x := by
  induction xs generalizing x with
  | nil => exact hx
  | cons y ys ih =>
    simp only [List.foldl_cons]
    exact ih (Nat.min x y) (Nat.le_min.mpr ⟨hx, hxs y (by simp)⟩)
      (fun z hz => hxs z (by simp [hz]))

/-- Lower bound of the list minimum over a nonempty list. -/
theorem listMin_ge (c : Nat) (l : List Nat) (hne : l ≠ []) (h : ∀ y ∈ l, c ≤ y) :
    c ≤ listMin l := by
  cases l with
  | nil => exact absurd rfl hne
  | cons x xs =>
    exact foldl_min_ge c xs x (h x (by simp)) (fun y hy => h y (by simp [hy]))

/-- Updating one record in place preserves the registry length. -/
theorem updateAt_length (l : List SimulatorState) (i : Nat)
    (f : SimulatorState → SimulatorState) :
    (updateAt l i f).length = l.length := by
  simp [updateAt]

/-- Updating one record with a subscription-preserving function preserves
the subscription view of the whole registry. -/
theorem map_subs_updateAt (l : List SimulatorState) (i : Nat)
    (f : SimulatorState → SimulatorState)
    (hf : ∀ r, (f r).subscription_values = r.subscription_values) :
    (updateAt l i f).map SimulatorState.subscription_values
      = l.map SimulatorState.subscription_values := by
  induction l generalizing i with
  | nil => simp [updateAt]
  | cons a l ih =>
    cases i with
    | zero => simp [updateAt, hf]
    | succ n =>
      have hstep : updateAt (a :: l) (n + 1) f = a :: updateAt l n f := by
        simp [updateAt]
      rw [hstep, List.map_cons, List.map_cons, ih n]

/-- Mapping a subscription-preserving function over the prefix that the
grant and publish loops touch preserves the subscription view. -/
theorem map_subs_take_drop (l : List SimulatorState) (n : Nat)
    (g : SimulatorState → SimulatorState)
    (hg : ∀ r, (g r).subscription_values = r.subscription_values) :
    ((l.take n).map g ++ l.drop n).map SimulatorState.subscription_values
      = l.map SimulatorState.subscription_values := by
  rw [List.map_append, List.map_map]
  have h : SimulatorState.subscription_values ∘ g
      = SimulatorState.subscription_values := funext hg
  rw [h, List.map_take, List.map_drop, List.take_append_drop]

/-- Taking the full length of the subscription view is the identity. -/
theorem take_len_map_subs (l : List SimulatorState) :
    (l.map SimulatorState.subscription_values).take l.length
      = l.map SimulatorState.subscription_values := by
  rw [← List.length_map l SimulatorState.subscription_values]
  exact List.take_length _

/-- C4 counterexample: in a reachable three-simulator state in which sA
has already sent BYE (so sA is in the byes set and n_processing is 2 for
sB and sC), a second BYE from sA is not state-neutral: the broker runs the
generic completion bookkeeping again and decrements n_processing from 2 to
1, refuting the claim that a duplicate BYE changes no broker state. -/
theorem simC4_counterexample :
    c4state.byes.contains "sA" = true ∧ c4state.n_processing = 2 ∧
      (afterStep (step c4state "sA" Message.bye)).map BrokerState.n_processing
        = some 1 := by decide

/-- C4 amended: a second or later BYE from a registered simulator does not
grow the departed set (so global termination still counts the peer once),
but it does repeat the completion bookkeeping: the result is exactly
recordCompletion with the ULLONG_MAX sentinel, which decrements
n_processing again, restamps time_last_processed and clears the processing
flag; no message is emitted.  Stated away from the termination and
round-close edges. -/
theorem simC4_amended (s : BrokerState) (sender : String) (index : Nat)
    (hfind : findSim s.simulators sender = some index)
    (hdup : s.byes.contains sender = true)
    (hterm : s.byes.length ≠ s.n_sims)
    (hnp : s.n_processing ≠ 1) :
    step s sender Message.bye = StepResult.cont (recordCompletion s index UMAX) []
    ∧ (recordCompletion s index UMAX).byes = s.byes
    ∧ (recordCompletion s index UMAX).n_processing = s.n_processing - 1 := by
  refine ⟨?_, by simp [recordCompletion], by simp [recordCompletion]⟩
  have hb : byesInsert s.byes sender = s.byes := by
    unfold byesInsert; rw [if_pos hdup]
  simp only [step, hfind, hb]
  rw [if_neg hterm, if_neg (by simp [recordCompletion]; omega)]

/-- C4 amended witness at the concrete duplicate-BYE state. -/
theorem simC4_witness :
    step c4state "sA" Message.bye
      = StepResult.cont (recordCompletion c4state 0 UMAX) []
    ∧ (recordCompletion c4state 0 UMAX).byes = c4state.byes
    ∧ (recordCompletion c4state 0 UMAX).n_processing = c4state.n_processing - 1 :=
  simC4_amended c4state "sA" 0 (by decide) (by decide) (by decide) (by decide)

/-- C5 counterexample: with the registry already holding the expected
single simulator, a HELLO from the new identity beta is admitted and
creates a second record, so the registry size exceeds expected_sims,
refuting the claim that no further HELLO is admitted once the registry is
full. -/
theorem simC5_counterexample :
    c5state.n_sims = 1 ∧ c5state.simulators.length = c5state.n_sims ∧
      (afterStep (step c5state "beta" (Message.hello (some c5cfg)))).map
        (fun s => s.simulators.length) = some 2 := by decide

/-- C5 amended: once the registry size has reached (or passed)
expected_sims, a HELLO from a fresh identity is still admitted silently: a
new record is appended, nothing is sent, and the go-ahead broadcast never
fires again; there is no RegistrationClosed failure.  Only a HELLO that
reuses a registered identity is fatal. -/
theorem simC5_amended (s : BrokerState) (sender : String) (cfg : Config)
    (hnew : findSim s.simulators sender = none)
    (hfull : s.n_sims ≤ s.simulators.length) :
    step s sender (Message.hello (some cfg)) =
      StepResult.cont
        { s with simulators := s.simulators ++ [newSimRecord sender cfg] } [] := by
  simp only [step, hnew]
  rw [if_neg (by simp; omega)]

/-- C5 amended witness at the concrete full registry. -/
theorem simC5_witness :
    step c5state "beta" (Message.hello (some c5cfg)) =
      StepResult.cont
        { c5state with simulators := c5state.simulators ++ [newSimRecord "beta" c5cfg] } [] :=
  simC5_amended c5state "beta" c5cfg (by decide) (by decide)

/-- C6 counterexample: a simulator with tick 2 requests time 3 and is
granted it, then requests time 5; handling the second request stamps its
time_last_processed with the previous grant 3, which is not a multiple of
its delta 2 (the remainder is 1), refuting the claimed loop-boundary
invariant. -/
theorem simC6_counterexample :
    (stepAfter (stepAfter (some c6state) "gA" (Message.timeRequest (some "3")))
        "gA" (Message.timeRequest (some "5"))).map
      (fun s => (s.simulators.getD 0 default).time_last_processed
        % (s.simulators.getD 0 default).time_delta)
      = some 1 := by decide

/-- C6 amended: the fast-forward update does preserve delta alignment: a
non-granted simulator whose time_last_processed is a multiple of its
time_delta keeps that property.  The invariant fails only through the
completion bookkeeping, which stamps time_last_processed with the granted
time, a value that need not be a multiple of that simulator's delta (it is
whenever simulators only request delta-aligned times). -/
theorem simC6_amended (tg : Nat) (r : SimulatorState)
    (h1 : r.time_last_processed ≤ tg) (h2 : tg < W)
    (hdvd : r.time_delta ∣ r.time_last_processed) :
    r.time_delta ∣ (fastForward tg r).time_last_processed := by
  rw [fastForward_eq tg r h1 h2]
  exact Nat.dvd_add hdvd (dvd_mul_right _ _)

/-- C6 amended witness: fast forward to 9 keeps the record aligned. -/
theorem simC6_witness :
    c6rec.time_delta ∣ (fastForward 9 c6rec).time_last_processed :=
  simC6_amended 9 c6rec (by decide) (by decide) (by decide)

/-- C7 counterexample: from a fresh single-simulator session, the
simulator is granted time 100 and then requests time 50; the new grant is
the minimum actionable time 50, strictly below the previous grant 100,
refuting the claim that time_granted is non-decreasing across rounds. -/
theorem simC7_counterexample :
    (stepAfter (some c7state) "p1" (Message.timeRequest (some "100"))).map
        BrokerState.time_granted = some 100
    ∧ (stepAfter (stepAfter (some c7state) "p1" (Message.timeRequest (some "100")))
        "p1" (Message.timeRequest (some "50"))).map BrokerState.time_granted
        = some 50 := by decide

/-- C7 amended: the grant computed at round close is at least the previous
time_granted provided every simulator is actionable no earlier than it:
every simulator without pending messages has requested a time at or after
the current grant, and every simulator with pending messages has its next
delta tick at or after it.  The broker does not enforce the first
condition, and a request below the current grant drives time_granted
backwards. -/
theorem simC7_amended (s : BrokerState)
    (hlen : s.simulators.length = s.n_sims)
    (hn : 0 < s.n_sims)
    (hreq : ∀ r ∈ s.simulators, r.messages_pending = false →
      s.time_granted ≤ r.time_requested)
    (hpend : ∀ r ∈ s.simulators, r.messages_pending = true →
      r.time_last_processed + r.time_delta < W ∧
      s.time_granted ≤ r.time_last_processed + r.time_delta) :
    s.time_granted ≤ (grantRound s).1.time_granted := by
  have htake : s.simulators.take s.n_sims = s.simulators := by
    rw [← hlen]; exact List.take_length _
  simp only [grantRound, htake]
  refine listMin_ge _ _ ?_ ?_
  · intro hmap
    have : s.simulators = [] := by
      cases hsims : s.simulators with
      | nil => rfl
      | cons a l => rw [hsims] at hmap; simp at hmap
    rw [this] at hlen
    simp at hlen
    omega
  · intro y hy
    rcases List.mem_map.mp hy with ⟨r, hr, hry⟩
    cases hp : r.messages_pending with
    | true =>
      have h := hpend r hr hp
      rw [← hry]
      unfold actionable
      rw [hp]
      simp only [if_true]
      rw [Nat.mod_eq_of_lt h.1]
      exact h.2
    | false =>
      rw [← hry]
      unfold actionable
      rw [hp]
      simp only [Bool.false_eq_true, if_false]
      exact hreq r hr hp

/-- C7 amended witness at a concrete round close with a request past the
current grant. -/
theorem simC7_witness :
    c7wstate.time_granted ≤ (grantRound c7wstate).1.time_granted :=
  simC7_amended c7wstate (by decide) (by decide) (by decide) (by decide)

/-- C9 counterexample: a TIME_REQUEST whose time frame is present but not
a valid decimal number (the string abc) does not make the broker broadcast
DIE and exit; the extraction stores 0 as the requested time and the loop
continues, refuting the claim for invalid (as opposed to missing)
frames. -/
theorem simC9_counterexample :
    isFailExit (step c9state "mA" (Message.timeRequest (some "abc"))) = false
    ∧ (afterStep (step c9state "mA" (Message.timeRequest (some "abc")))).map
        (fun s => (s.simulators.getD 0 default).time_requested) = some 0 := by decide

/-- C9 amended: a missing frame is fatal: a TIME_REQUEST or TIME_DELTA
without its time frame, a PUBLISH without its topic frame, a PUBLISH
without its value frame when tracing is enabled, and a HELLO without its
config frame all make the broker broadcast DIE to every registered
simulator and exit with failure.  A time frame that is present but not a
valid decimal number is not detected: extraction stores 0 and a
TIME_REQUEST with any present frame never takes the failure exit. -/
theorem simC9_amended (s : BrokerState) (sender : String) (index : Nat)
    (hfind : findSim s.simulators sender = some index) :
    step s sender (Message.timeRequest none) = StepResult.exitFail (dieList s.simulators)
    ∧ step s sender (Message.timeDelta none) = StepResult.exitFail (dieList s.simulators)
    ∧ (∀ v?, step s sender (Message.publish none v?)
        = StepResult.exitFail (dieList s.simulators))
    ∧ (∀ topic, s.do_trace = true →
        step s sender (Message.publish (some topic) none)
          = StepResult.exitFail (dieList s.simulators))
    ∧ step s sender (Message.hello none) = StepResult.exitFail (dieList s.simulators)
    ∧ (∀ f, isFailExit (step s sender (Message.timeRequest (some f))) = false) := by
  refine ⟨?_, ?_, ?_, ?_, ?_, ?_⟩
  · simp [step, hfind, brokerDie]
  · simp [step, hfind, brokerDie]
  · intro v?; simp [step, hfind, brokerDie]
  · intro topic htr; simp [step, hfind, htr, brokerDie]
  · simp [step, hfind, brokerDie]
  · intro f
    simp only [step, hfind]
    split
    · rfl
    · rfl

/-- The grant of a round is the minimum of the actionable times, written
with plain addition when every pending sum is inside the word bound. -/
theorem grantRound_time (s1 : BrokerState)
    (hlen : s1.simulators.length = s1.n_sims)
    (hb : ∀ r ∈ s1.simulators, r.time_last_processed + r.time_delta < W) :
    (grantRound s1).1.time_granted
      = listMin (s1.simulators.map (fun r =>
          if r.messages_pending then r.time_last_processed + r.time_delta
          else r.time_requested)) := by
  have htake : s1.simulators.take s1.n_sims = s1.simulators := by
    rw [← hlen]; exact List.take_length _
  simp only [grantRound, htake]
  congr 1
  apply List.map_congr_left
  intro r hr
  unfold actionable
  cases hp : r.messages_pending with
  | true => simp [Nat.mod_eq_of_lt (hb r hr)]
  | false => simp

/-- Continuing with a state whose subscription-view prefix matches keeps
the subscription view. -/
theorem subsView_cont_prefix (s s1 : BrokerState) (outs : List Output)
    (h : (s1.simulators.map SimulatorState.subscription_values).take s.simulators.length
        = s.simulators.map SimulatorState.subscription_values) :
    subsView s (StepResult.cont s1 outs)
      = s.simulators.map SimulatorState.subscription_values := by
  simp only [subsView, afterStep]
  exact h

/-- Continuing with an unchanged subscription view keeps it. -/
theorem subsView_cont (s s1 : BrokerState) (outs : List Output)
    (h : s1.simulators.map SimulatorState.subscription_values
        = s.simulators.map SimulatorState.subscription_values) :
    subsView s (StepResult.cont s1 outs)
      = s.simulators.map SimulatorState.subscription_values := by
  apply subsView_cont_prefix
  rw [h]
  exact take_len_map_subs _

/-- The grant round never changes any subscription set. -/
theorem subs_grantRound (s1 : BrokerState) :
    (grantRound s1).1.simulators.map SimulatorState.subscription_values
      = s1.simulators.map SimulatorState.subscription_values := by
  simp only [grantRound]
  apply map_subs_take_drop
  intro r
  split
  · rfl
  · simp [fastForward]

/-- The completion bookkeeping never changes any subscription set. -/
theorem subs_recordCompletion (s : BrokerState) (i t : Nat) :
    (recordCompletion s i t).simulators.map SimulatorState.subscription_values
      = s.simulators.map SimulatorState.subscription_values := by
  simp only [recordCompletion]
  exact map_subs_updateAt _ _ _ (fun r => rfl)

/-- C9 amended witness at the concrete traced state. -/
theorem simC9_witness :
    step c9state "mA" (Message.timeRequest none)
      = StepResult.exitFail (dieList c9state.simulators)
    ∧ step c9state "mA" (Message.timeDelta none)
      = StepResult.exitFail (dieList c9state.simulators)
    ∧ (∀ v?, step c9state "mA" (Message.publish none v?)
        = StepResult.exitFail (dieList c9state.simulators))
    ∧ (∀ topic, c9state.do_trace = true →
        step c9state "mA" (Message.publish (some topic) none)
          = StepResult.exitFail (dieList c9state.simulators))
    ∧ step c9state "mA" (Message.hello none)
      = StepResult.exitFail (dieList c9state.simulators)
    ∧ (∀ f, isFailExit (step c9state "mA" (Message.timeRequest (some f))) = false) :=
  simC9_amended c9state "mA" 0 (by decide)

/-- C1: when a TIME_REQUEST (or a BYE that does not complete termination)
from a registered simulator brings n_processing from 1 to 0, the broker
computes for every registered simulator an actionable time equal to
time_last_processed plus time_delta when messages are pending and to
time_requested otherwise, and sets the new time_granted to the minimum of
these actionable times.  Stated over the post-bookkeeping registry, for
the registry size the C++ loops index and with every pending sum inside
the uint64 range. -/
theorem simC1 (s : BrokerState) (sender f : String) (index : Nat)
    (hfind : findSim s.simulators sender = some index)
    (hnp : s.n_processing = 1)
    (hlen : s.simulators.length = s.n_sims)
    (hbTR : ∀ r ∈ (recordCompletion s index (ullOfString f)).simulators,
      r.time_last_processed + r.time_delta < W)
    (hbBY : ∀ r ∈ (recordCompletion { s with byes := byesInsert s.byes sender }
        index UMAX).simulators,
      r.time_last_processed + r.time_delta < W)
    (hbye : (byesInsert s.byes sender).length ≠ s.n_sims) :
    (afterStep (step s sender (Message.timeRequest (some f)))).map BrokerState.time_granted
      = some (listMin ((recordCompletion s index (ullOfString f)).simulators.map
          (fun r => if r.messages_pending then r.time_last_processed + r.time_delta
                    else r.time_requested)))
    ∧ (afterStep (step s sender Message.bye)).map BrokerState.time_granted
      = some (listMin ((recordCompletion { s with byes := byesInsert s.byes sender }
            index UMAX).simulators.map
          (fun r => if r.messages_pending then r.time_last_processed + r.time_delta
                    else r.time_requested))) := by
  constructor
  · have hcond : (recordCompletion s index (ullOfString f)).n_processing = 0 := by
      simp [recordCompletion, hnp]
    simp only [step, hfind]
    rw [if_pos hcond]
    simp only [afterStep, Option.map_some']
    exact congrArg some (grantRound_time _
      (by simp [recordCompletion, updateAt_length, hlen]) hbTR)
  · have hcond : (recordCompletion { s with byes := byesInsert s.byes sender }
        index UMAX).n_processing = 0 := by
      simp [recordCompletion, hnp]
    simp only [step, hfind]
    rw [if_neg hbye, if_pos hcond]
    simp only [afterStep, Option.map_some']
    exact congrArg some (grantRound_time _
      (by simp [recordCompletion, updateAt_length, hlen]) hbBY)

/-- C1 witness: concrete two-simulator round close; the request conjunct
grants min(5, 7) and the bye conjunct grants min(ULLONG_MAX, 7). -/
theorem simC1_witness :
    (afterStep (step c1state "pA" (Message.timeRequest (some "5")))).map
        BrokerState.time_granted
      = some (listMin ((recordCompletion c1state 0 (ullOfString "5")).simulators.map
          (fun r => if r.messages_pending then r.time_last_processed + r.time_delta
                    else r.time_requested)))
    ∧ (afterStep (step c1state "pA" Message.bye)).map BrokerState.time_granted
      = some (listMin ((recordCompletion { c1state with byes := byesInsert c1state.byes "pA" }
            0 UMAX).simulators.map
          (fun r => if r.messages_pending then r.time_last_processed + r.time_delta
                    else r.time_requested))) :=
  simC1 c1state "pA" "5" 0 (by decide) (by decide) (by decide) (by decide)
    (by decide) (by decide)

/-- C2: in a grant round, a registered simulator whose actionable time
equals the new grant is marked processing with messages_pending cleared,
n_processing ends up counting exactly the granted simulators, and the
emitted messages are TIME_REQUEST of the grant to exactly the granted
simulators in ordinal order; every other simulator receives nothing and
its time_last_processed advances by k times its delta, where k is the
integer quotient of the grant minus time_last_processed by the delta.
Stated for in-range states whose last processed times do not pass the new
grant. -/
theorem simC2 (s : BrokerState)
    (hlen : s.simulators.length = s.n_sims)
    (hnp : s.n_processing = 0)
    (htlp : ∀ r ∈ s.simulators,
      r.time_last_processed ≤ listMin (s.simulators.map actionable))
    (hW : listMin (s.simulators.map actionable) < W) :
    (grantRound s).1.simulators = s.simulators.map (fun r =>
        if actionable r = listMin (s.simulators.map actionable) then
          { r with processing := true, messages_pending := false }
        else
          { r with time_last_processed := r.time_last_processed +
              r.time_delta * ((listMin (s.simulators.map actionable)
                - r.time_last_processed) / r.time_delta) })
    ∧ (grantRound s).1.n_processing =
        ((s.simulators.filter
          (fun r => actionable r = listMin (s.simulators.map actionable))).length : Int)
    ∧ (grantRound s).2 =
        (s.simulators.filter
          (fun r => actionable r = listMin (s.simulators.map actionable))).map
          (fun r => Output.grant r.name (listMin (s.simulators.map actionable))) := by
  have htake : s.simulators.take s.n_sims = s.simulators := by
    rw [← hlen]; exact List.take_length _
  have hdrop : s.simulators.drop s.n_sims = [] := by
    rw [← hlen]; exact List.drop_length _
  refine ⟨?_, ?_, ?_⟩
  · simp only [grantRound, htake, hdrop, List.append_nil]
    apply List.map_congr_left
    intro r hr
    by_cases h : actionable r = listMin (s.simulators.map actionable)
    · rw [if_pos h, if_pos h]
    · rw [if_neg h, if_neg h, fastForward_eq _ _ (htlp r hr) hW]
  · simp only [grantRound, htake]
    rw [hnp, zero_add]
  · simp only [grantRound, htake]

/-- C2 witness: concrete round close granting 7 to the pending simulator
pB while pA (actionable at 10) is fast forwarded in place. -/
theorem simC2_witness :
    (grantRound c2state).1.simulators = c2state.simulators.map (fun r =>
        if actionable r = listMin (c2state.simulators.map actionable) then
          { r with processing := true, messages_pending := false }
        else
          { r with time_last_processed := r.time_last_processed +
              r.time_delta * ((listMin (c2state.simulators.map actionable)
                - r.time_last_processed) / r.time_delta) })
    ∧ (grantRound c2state).1.n_processing =
        ((c2state.simulators.filter
          (fun r => actionable r = listMin (c2state.simulators.map actionable))).length : Int)
    ∧ (grantRound c2state).2 =
        (c2state.simulators.filter
          (fun r => actionable r = listMin (c2state.simulators.map actionable))).map
          (fun r => Output.grant r.name (listMin (c2state.simulators.map actionable))) :=
  simC2 c2state (by decide) (by decide) (by decide) (by decide)

/-- C3: a PUBLISH with topic and value from a registered simulator is
forwarded to exactly the registered simulators whose subscription set
contains the topic, in ordinal order, and each of those gets
messages_pending set; when no subscription matches, nothing is sent and
the state is unchanged. -/
theorem simC3 (s : BrokerState) (sender topic v : String) (index : Nat)
    (hfind : findSim s.simulators sender = some index)
    (hlen : s.simulators.length = s.n_sims) :
    step s sender (Message.publish (some topic) (some v)) =
      StepResult.cont
        { s with simulators := s.simulators.map (fun r =>
            if r.subscription_values.contains topic then
              { r with messages_pending := true } else r) }
        ((s.simulators.filter (fun r => r.subscription_values.contains topic)).map
          (fun r => Output.forward r.name topic (some v)))
    ∧ ((∀ r ∈ s.simulators, r.subscription_values.contains topic = false) →
        step s sender (Message.publish (some topic) (some v))
          = StepResult.cont s []) := by
  have htake : s.simulators.take s.n_sims = s.simulators := by
    rw [← hlen]; exact List.take_length _
  have hdrop : s.simulators.drop s.n_sims = [] := by
    rw [← hlen]; exact List.drop_length _
  have h1 : step s sender (Message.publish (some topic) (some v)) =
      StepResult.cont
        { s with simulators := s.simulators.map (fun r =>
            if r.subscription_values.contains topic then
              { r with messages_pending := true } else r) }
        ((s.simulators.filter (fun r => r.subscription_values.contains topic)).map
          (fun r => Output.forward r.name topic (some v))) := by
    simp only [step, hfind]
    rw [if_neg (by simp)]
    simp only [htake, hdrop, List.append_nil]
  refine ⟨h1, ?_⟩
  intro hnone
  rw [h1]
  have hm : s.simulators.map (fun r =>
      if r.subscription_values.contains topic then
        { r with messages_pending := true } else r) = s.simulators := by
    conv_rhs => rw [← List.map_id s.simulators]
    apply List.map_congr_left
    intro r hr
    rw [if_neg]
    · rfl
    · rw [hnone r hr]
      exact Bool.false_ne_true
  have hfil : s.simulators.filter
      (fun r => r.subscription_values.contains topic) = [] := by
    rw [List.filter_eq_nil_iff]
    intro a ha
    simpa using hnone a ha
  rw [hm, hfil]
  rfl

/-- C3 witness: a concrete publish of topicX reaching its one subscriber
pA, sent by the non-subscriber pB. -/
theorem simC3_witness :
    step c3state "pB" (Message.publish (some "topicX") (some "42")) =
      StepResult.cont
        { c3state with simulators := c3state.simulators.map (fun r =>
            if r.subscription_values.contains "topicX" then
              { r with messages_pending := true } else r) }
        ((c3state.simulators.filter
            (fun r => r.subscription_values.contains "topicX")).map
          (fun r => Output.forward r.name "topicX" (some "42")))
    ∧ ((∀ r ∈ c3state.simulators, r.subscription_values.contains "topicX" = false) →
        step c3state "pB" (Message.publish (some "topicX") (some "42"))
          = StepResult.cont c3state []) :=
  simC3 c3state "pB" "topicX" "42" 1 (by decide) (by decide)

/-- C8: the broker exits with status 0 exactly on a BYE from a registered
simulator that makes the set of distinct departed simulators reach
expected_sims, and then the emitted messages are one BYE to every
registered simulator in ordinal order; no other message can produce the
successful exit. -/
theorem simC8 (s : BrokerState) (sender : String) (m : Message) (outs : List Output)
    (hlen : s.simulators.length = s.n_sims) :
    step s sender m = StepResult.exitOk outs ↔
      (m = Message.bye ∧ findSim s.simulators sender ≠ none ∧
       (byesInsert s.byes sender).length = s.n_sims ∧
       outs = s.simulators.map (fun r => Output.byeOut r.name)) := by
  have htake : s.simulators.take s.n_sims = s.simulators := by
    rw [← hlen]; exact List.take_length _
  cases m with
  | hello cfg? =>
    simp only [step]
    split
    · simp [brokerDie]
    · split
      · simp [brokerDie]
      · split <;> simp
  | timeRequest frame? =>
    simp only [step]
    split
    · simp [brokerDie]
    · split
      · simp [brokerDie]
      · split <;> simp
  | bye =>
    simp only [step]
    split
    next hf => simp [brokerDie, hf]
    next i hf =>
      rw [htake]
      split
      next h => simp [hf, h, eq_comm]
      next h => split <;> simp [hf, h]
  | publish topic? value? =>
    simp only [step]
    split
    · simp [brokerDie]
    · split
      · simp [brokerDie]
      · split <;> simp [brokerDie]
  | die => simp [step, brokerDie]
  | unknown tag => simp [step, brokerDie]
  | timeDelta frame? =>
    simp only [step]
    split
    · simp [brokerDie]
    · split
      · simp [brokerDie]
      · simp


/-- C8 witness: the single simulator sends BYE and the broker exits with
status 0 after sending it BYE. -/
theorem simC8_witness :
    step c8state "sA" Message.bye
      = StepResult.exitOk (c8state.simulators.map (fun r => Output.byeOut r.name)) :=
  (simC8 c8state "sA" Message.bye
      (c8state.simulators.map (fun r => Output.byeOut r.name)) (by decide)).mpr
    ⟨rfl, by decide, by decide, rfl⟩

/-- C10: no message handler ever changes the subscription set of an
already-registered simulator (the subscription view of the original
registry prefix is preserved by every continuing step), and the
TIME_DELTA handler changes exactly the time_delta field of the sender,
leaving every other field and record, the departed set, the processing
count and the grant untouched, and sends nothing. -/
theorem simC10 (s : BrokerState) (sender : String) (m : Message) :
    subsView s (step s sender m) = s.simulators.map SimulatorState.subscription_values
    ∧ (∀ f index, m = Message.timeDelta (some f) →
        findSim s.simulators sender = some index →
        step s sender m = StepResult.cont
          { s with simulators :=
                     updateAt s.simulators index
                       (fun r => { r with time_delta := ullOfString f }) } []) := by
  constructor
  · cases m with
    | hello cfg? =>
      cases hf : findSim s.simulators sender with
      | some i => simp [step, hf, subsView, afterStep, brokerDie]
      | none =>
        cases cfg? with
        | none => simp [step, hf, subsView, afterStep, brokerDie]
        | some cfg =>
          simp only [step, hf]
          split
          · apply subsView_cont_prefix
            rw [List.map_map]
            have hcomp : SimulatorState.subscription_values
                ∘ (fun r => { r with processing := true })
                = SimulatorState.subscription_values := funext (fun r => rfl)
            rw [hcomp, List.map_append]
            conv_lhs =>
              rw [← List.length_map s.simulators SimulatorState.subscription_values]
            exact List.take_left _ _
          · apply subsView_cont_prefix
            rw [List.map_append]
            conv_lhs =>
              rw [← List.length_map s.simulators SimulatorState.subscription_values]
            exact List.take_left _ _
    | timeRequest frame? =>
      cases hf : findSim s.simulators sender with
      | none => simp [step, hf, subsView, afterStep, brokerDie]
      | some i =>
        cases frame? with
        | none => simp [step, hf, subsView, afterStep, brokerDie]
        | some f =>
          simp only [step, hf]
          split
          · apply subsView_cont
            rw [subs_grantRound]
            exact subs_recordCompletion s i _
          · apply subsView_cont
            exact subs_recordCompletion s i _
    | bye =>
      cases hf : findSim s.simulators sender with
      | none => simp [step, hf, subsView, afterStep, brokerDie]
      | some i =>
        simp only [step, hf]
        split
        · simp [subsView, afterStep]
        · split
          · apply subsView_cont
            rw [subs_grantRound]
            exact subs_recordCompletion _ i _
          · apply subsView_cont
            exact subs_recordCompletion _ i _
    | publish topic? value? =>
      cases hf : findSim s.simulators sender with
      | none => simp [step, hf, subsView, afterStep, brokerDie]
      | some i =>
        cases topic? with
        | none => simp [step, hf, subsView, afterStep, brokerDie]
        | some topic =>
          simp only [step, hf]
          split
          · simp [subsView, afterStep, brokerDie]
          · apply subsView_cont
            apply map_subs_take_drop
            intro r
            split <;> rfl
    | die => simp [step, subsView, afterStep, brokerDie]
    | unknown tag => simp [step, subsView, afterStep, brokerDie]
    | timeDelta frame? =>
      cases hf : findSim s.simulators sender with
      | none => simp [step, hf, subsView, afterStep, brokerDie]
      | some i =>
        cases frame? with
        | none => simp [step, hf, subsView, afterStep, brokerDie]
        | some f =>
          simp only [step, hf]
          apply subsView_cont
          exact map_subs_updateAt s.simulators i
            (fun r => { r with time_delta := ullOfString f }) (fun r => rfl)
  · intro f index hm hfind
    subst hm
    simp only [step, hfind]

/-- C10 witness: a concrete TIME_DELTA that rewrites only the delta of
the single registered simulator. -/
theorem simC10_witness :
    step c10state "tA" (Message.timeDelta (some "7")) = StepResult.cont
      { c10state with simulators :=
                        updateAt c10state.simulators 0
                          (fun r => { r with time_delta := ullOfString "7" }) } [] :=
  (simC10 c10state "tA" (Message.timeDelta (some "7"))).2 "7" 0 rfl (by decide)

end FncsBroker
